import Mathlib

/-!
Verification of the LinkedIn content-automation platform's core:
the pipeline orchestrator (`app/agents/orchestrator.py`), the publisher
agent's retry/refresh machine (`app/agents/publisher_agent.py`), and the
websocket fan-out broadcaster (`app/services/websocket_manager.py`).
Python strings are modelled by Lean `String` (a list of characters in this
toolchain), Python lists by `List`, the subscriber dictionary by a function
`String → Option (List Nat)` (websocket handles are numbered), and each
external call's outcome by an oracle supplied as an explicit argument.
-/

namespace SMCC

/-! ## Data model (`app/models/schemas.py`) -/

/-- `Platform` enum; the source currently has the single member `linkedin`. -/
inductive Platform where
  | linkedin
deriving DecidableEq

/-- `ContentPiece` pydantic model: platform, body text, hashtags, optional
schedule, publication flag (default false). -/
structure ContentPiece where
  platform : Platform
  content : String
  hashtags : List String
  scheduled_time : Option String
  published : Bool
deriving DecidableEq

/-- `CampaignRequest` pydantic model. -/
structure CampaignRequest where
  topic : String
  platforms : List Platform
  tone : String
  target_audience : String
  auto_publish : Bool
deriving DecidableEq

/-- `CampaignResponse` pydantic model: `content` defaults to `[]`,
`trend_insights` to `None`. -/
structure CampaignResponse where
  campaign_id : String
  topic : String
  status : String
  content : List ContentPiece
  trend_insights : Option String
deriving DecidableEq

/-! ## EventBus (`app/services/websocket_manager.py`, `ConnectionManager`)

`active_connections : dict[str, list[WebSocket]]` is modelled as a function
from campaign id to `Option (List Nat)`: `none` means the key is absent,
`some conns` that the key maps to the (ordered) list of websocket handles.
An operation that can raise a Python exception returns `Option`, `none`
standing for an uncaught exception escaping to the caller. -/

/-- The subscriber registry: campaign id to registered websocket handles. -/
def Registry : Type := String → Option (List Nat)

/-- Dictionary write: `v = none` models `del d[cid]`, `v = some l` models
`d[cid] = l`. -/
def setEntry (r : Registry) (cid : String) (v : Option (List Nat)) : Registry :=
  fun c => if c = cid then v else r c

/-- Python `list.remove(ws)`: drops the first occurrence of `ws`; `none`
models the `ValueError` raised when `ws` is absent. -/
def listRemove (ws : Nat) : List Nat → Option (List Nat)
  | [] => none
  | x :: xs => if x = ws then some xs else Option.map (fun ys => x :: ys) (listRemove ws xs)

/-- `ConnectionManager.disconnect`: if the campaign key is present, remove
the handle from its list (raising if absent — `none`) and delete the key
when the list becomes empty; if the key is absent, do nothing. -/
def disconnect (r : Registry) (ws : Nat) (cid : String) : Option Registry :=
  match r cid with
  | none => some r
  | some conns =>
    match listRemove ws conns with
    | none => none
    | some conns2 => some (setEntry r cid (if conns2 = [] then none else some conns2))

/-- The `for ws in dead: self.disconnect(ws, campaign_id)` loop of
`broadcast_event`; `none` propagates an exception from any `disconnect`. -/
def disconnectAll (cid : String) : List Nat → Registry → Option Registry
  | [], r => some r
  | w :: ws, r =>
    match disconnect r w cid with
    | none => none
    | some r2 => disconnectAll cid ws r2

/-- `ConnectionManager.broadcast_event`: when the campaign key is present,
send to every registered handle in order (`sendOk w` is the oracle for
`ws.send_text` succeeding — a failure is caught and `w` collected into
`dead`), then disconnect every dead handle. Returns the new registry and
the handles that received the event; `none` models an uncaught exception. -/
def broadcast_event (r : Registry) (cid : String) (sendOk : Nat → Bool) :
    Option (Registry × List Nat) :=
  match r cid with
  | none => some (r, [])
  | some conns =>
    let delivered := conns.filter (fun w => sendOk w)
    let dead := conns.filter (fun w => !sendOk w)
    Option.map (fun r2 => (r2, delivered)) (disconnectAll cid dead r)

/-! ## PublisherAgent (`app/agents/publisher_agent.py`) -/

/-- Python `text[:3000]`-style slicing: keep the first `n` characters. -/
def pyTruncate (s : String) (n : Nat) : String :=
  String.mk (s.data.take n)

/-- Line 157: `" ".join(f"#{t}" for t in piece.hashtags)`. -/
def hashtagTrailer (tags : List String) : String :=
  String.intercalate " " (tags.map (fun t => "#" ++ t))

/-- Lines 155–161 of `_publish_linkedin`: append the hashtag trailer when
the hashtag list is non-empty, then hard-truncate to LinkedIn's 3000-char
limit. -/
def outgoingText (piece : ContentPiece) : String :=
  let text := piece.content
  let text2 := if piece.hashtags = [] then text else text ++ "\n\n" ++ hashtagTrailer piece.hashtags
  pyTruncate text2 3000

/-- Outcome of one `client.post` to the posts endpoint: an HTTP status, or
an `httpx.HTTPError` caught by the retry loop. -/
inductive PostResp where
  | status (code : Nat)
  | transportError
deriving DecidableEq

/-- External-world oracle for one `_publish_linkedin` call: the agent's
access token and cached URN at entry, the outcome of a userinfo fetch
(`none` = failure), the outcome of `_refresh_token` if it is invoked, and
the response to the k-th POST (0-indexed). -/
structure PublishEnv where
  accessToken : String
  cachedUrn : Option String
  urnFetch : Option String
  refreshOk : Bool
  resp : Nat → PostResp

/-- Observable outcome of the retry loop: the returned boolean, how many
POST calls were made, the backoff sleeps performed (in seconds, in order),
and how many times `_refresh_token` was invoked. -/
structure LoopOut where
  success : Bool
  calls : Nat
  delays : List Nat
  refreshes : Nat
deriving DecidableEq

/-- `max_retries` default of `_publish_linkedin`. -/
def max_retries : Nat := 3

/-- The `for attempt in range(1, max_retries + 1)` loop of
`_publish_linkedin`, lines 189–235. `r` is the number of loop iterations
still available (so the current attempt number is `maxR - r + 1` on entry
with `r + 1` remaining), `k` counts POST calls already made, and `tr` is
the `token_refreshed` flag. A 200/201 returns true at once; a 401 with no
refresh yet either refreshes and `continue`s (advancing to the next loop
slot, with no sleep) or returns false when the refresh fails; a 403
returns false at once; anything else (including a transport error) falls
through to the backoff sleep `2 ** attempt` — performed only when
`attempt < max_retries` — and the next iteration. -/
def publishLoop (env : PublishEnv) (maxR : Nat) : Nat → Nat → Bool → LoopOut
  | 0, k, _ => LoopOut.mk false k [] 0
  | r + 1, k, tr =>
    let retryStep := fun (tr2 : Bool) =>
      let out := publishLoop env maxR r (k + 1) tr2
      if r = 0 then out else
        LoopOut.mk out.success out.calls (2 ^ (maxR - r) :: out.delays) out.refreshes
    match env.resp k with
    | PostResp.transportError => retryStep tr
    | PostResp.status c =>
      if c = 200 ∨ c = 201 then LoopOut.mk true (k + 1) [] 0
      else if c = 401 ∧ tr = false then
        (if env.refreshOk then
          let out := publishLoop env maxR r (k + 1) true
          LoopOut.mk out.success out.calls out.delays (out.refreshes + 1)
        else LoopOut.mk false (k + 1) [] 1)
      else if c = 403 then LoopOut.mk false (k + 1) [] 0
      else retryStep tr

/-- `_publish_linkedin` (lines 149–235): bail out with false when no access
token is configured; resolve the author URN via `_get_user_urn` (cached
value, else a userinfo fetch — `none` aborts with false); then run the
retry loop with `max_retries = 3`. -/
def publish_linkedin (env : PublishEnv) : LoopOut :=
  if env.accessToken = "" then LoopOut.mk false 0 [] 0
  else
    match (match env.cachedUrn with | some u => some u | none => env.urnFetch) with
    | none => LoopOut.mk false 0 [] 0
    | some _ => publishLoop env max_retries max_retries 0 false

/-- `piece.published = True` (line 48). -/
def setPublished (p : ContentPiece) : ContentPiece :=
  { p with published := true }

/-- The piece loop of `PublisherAgent.run` (lines 32–80): when
`auto_publish` is set, each piece triggers one `_publish_linkedin` call
(the oracle `pub` gives the k-th call's result) and is marked published on
success; otherwise the piece is left untouched and only saved as a draft.
Returns the processed pieces and the total number of publish calls. -/
def publisherRunAux (pub : Nat → Bool) (auto : Bool) :
    List ContentPiece → Nat → List ContentPiece × Nat
  | [], k => ([], k)
  | p :: rest, k =>
    if auto then
      let p2 := if pub k then setPublished p else p
      let out := publisherRunAux pub auto rest (k + 1)
      (p2 :: out.1, out.2)
    else
      let out := publisherRunAux pub auto rest k
      (p :: out.1, out.2)

/-- `PublisherAgent.run`, starting with zero publish calls made. -/
def publisherRun (pub : Nat → Bool) (auto : Bool) (pieces : List ContentPiece) :
    List ContentPiece × Nat :=
  publisherRunAux pub auto pieces 0

/-! ## Orchestrator (`app/agents/orchestrator.py`) -/

/-- Outcomes of the three agents' `run` calls for one campaign: the trend
agent's brief, the writer's pieces given the brief, and the publisher's
pieces given the writer's pieces. `Except.error` models a raised exception
caught by the orchestrator's `except` block. -/
structure PipelineEnv where
  trend : Except String String
  writer : String → Except String (List ContentPiece)
  publisher : List ContentPiece → Except String (List ContentPiece)

/-- One stage invocation, recorded in order of execution. -/
inductive Stage where
  | trend
  | writer
  | publisher
deriving DecidableEq

/-- `run_campaign` (lines 21–126): run the trend agent; on failure return a
failed `CampaignResponse` with `trend_insights = "Error: " ++ e` and the
default empty content. Otherwise run the writer; on failure return failed
with the brief and empty content. Otherwise run the publisher; on failure
return failed with the writer's pieces and the brief. Otherwise return
`status = "completed"` with the published pieces. The second component
records which agents were invoked. -/
def run_campaign (env : PipelineEnv) (req : CampaignRequest) (cid : String) :
    CampaignResponse × List Stage :=
  match env.trend with
  | Except.error e =>
    (CampaignResponse.mk cid req.topic "failed" [] (some ("Error: " ++ e)), [Stage.trend])
  | Except.ok brief =>
    match env.writer brief with
    | Except.error _ =>
      (CampaignResponse.mk cid req.topic "failed" [] (some brief), [Stage.trend, Stage.writer])
    | Except.ok pieces =>
      match env.publisher pieces with
      | Except.error _ =>
        (CampaignResponse.mk cid req.topic "failed" pieces (some brief),
          [Stage.trend, Stage.writer, Stage.publisher])
      | Except.ok pieces2 =>
        (CampaignResponse.mk cid req.topic "completed" pieces2 (some brief),
          [Stage.trend, Stage.writer, Stage.publisher])

/-! ## Helper lemmas: the Publish-stage piece loop -/

theorem publisherRunAux_auto_false (pub : Nat → Bool) :
    ∀ (pieces : List ContentPiece) (k : Nat), publisherRunAux pub false pieces k = (pieces, k)
  | [], _ => rfl
  | p :: rest, k => by
    simp [publisherRunAux, publisherRunAux_auto_false pub rest k]

theorem publisherRunAux_length (pub : Nat → Bool) (auto : Bool) :
    ∀ (pieces : List ContentPiece) (k : Nat),
      (publisherRunAux pub auto pieces k).1.length = pieces.length
  | [], _ => rfl
  | p :: rest, k => by
    rcases Bool.eq_false_or_eq_true auto with ha | ha <;> subst ha
    · simp [publisherRunAux, publisherRunAux_length pub true rest]
    · simp [publisherRunAux, publisherRunAux_length pub false rest]

theorem publisherRunAux_get (pub : Nat → Bool) (auto : Bool) :
    ∀ (pieces : List ContentPiece) (k i : Nat) (p : ContentPiece), pieces[i]? = some p →
      (publisherRunAux pub auto pieces k).1[i]? =
        some (if auto && pub (k + i) then setPublished p else p)
  | [], _, i, _ => by simp
  | q :: rest, k, 0, p => by
    intro h
    rw [List.getElem?_cons_zero, Option.some_inj] at h
    subst h
    rcases Bool.eq_false_or_eq_true auto with ha | ha <;> subst ha
    · simp [publisherRunAux]
    · simp [publisherRunAux]
  | q :: rest, k, i + 1, p => by
    intro h
    rw [List.getElem?_cons_succ] at h
    rcases Bool.eq_false_or_eq_true auto with ha | ha <;> subst ha
    · have ih := publisherRunAux_get pub true rest (k + 1) i p h
      have harith : k + 1 + i = k + (i + 1) := by omega
      rw [harith] at ih
      simpa [publisherRunAux] using ih
    · have ih := publisherRunAux_get pub false rest k i p h
      simpa [publisherRunAux] using ih

/-! ## Claims about the Publish stage's piece loop -/

/-- C10: with the auto-publish flag off, `PublisherAgent.run` performs no
publish call at all and returns every piece with every field unchanged. -/
theorem publisher_draft_mode_frame (pub : Nat → Bool) (pieces : List ContentPiece) :
    publisherRun pub false pieces = (pieces, 0) := by
  simp [publisherRun, publisherRunAux_auto_false]

/-- C7: one piece's publish failure does not abort the batch — the Publish
stage returns a list with all input pieces in place, a failed piece is kept
exactly as its input draft, and a succeeded piece is the input with its
publication flag set. -/
theorem publisher_batch_isolation (pub : Nat → Bool) (pieces : List ContentPiece) :
    ((publisherRun pub true pieces).1.length = pieces.length)
    ∧ (∀ i p, pieces[i]? = some p →
        (publisherRun pub true pieces).1[i]? =
          some (if pub i then setPublished p else p))
    ∧ (∀ i p, pieces[i]? = some p → pub i = false →
        (publisherRun pub true pieces).1[i]? = some p)
    ∧ (∀ i p, pieces[i]? = some p → pub i = true →
        (publisherRun pub true pieces).1[i]? = some (setPublished p)
        ∧ (setPublished p).published = true) := by
  refine ⟨publisherRunAux_length pub true pieces 0, ?_, ?_, ?_⟩
  · intro i p hp
    have h := publisherRunAux_get pub true pieces 0 i p hp
    simpa [publisherRun] using h
  · intro i p hp hfail
    have h := publisherRunAux_get pub true pieces 0 i p hp
    simpa [publisherRun, hfail] using h
  · intro i p hp hok
    have h := publisherRunAux_get pub true pieces 0 i p hp
    exact ⟨by simpa [publisherRun, hok] using h, rfl⟩

/-- C6: a piece that enters the Publish stage unpublished leaves it with
`published = true` only when its publish call returned true under
auto-publish; with auto-publish off, or when the call returned false, the
piece is returned unchanged. -/
theorem published_flag_only_on_success (pub : Nat → Bool) (auto : Bool)
    (pieces : List ContentPiece) (i : Nat) (p q : ContentPiece)
    (hp : pieces[i]? = some p) (hdraft : p.published = false)
    (hq : (publisherRun pub auto pieces).1[i]? = some q) :
    (q.published = true → auto = true ∧ pub i = true)
    ∧ ((auto = false ∨ pub i = false) → q = p) := by
  have h := publisherRunAux_get pub auto pieces 0 i p hp
  rw [publisherRun] at hq
  rw [h, Option.some_inj] at hq
  rw [Nat.zero_add] at hq
  by_cases hc : (auto && pub i) = true
  · have hq2 : q = setPublished p := by rw [← hq, if_pos hc]
    constructor
    · intro _
      simpa using hc
    · intro hoff
      exfalso
      rcases hoff with h1 | h1 <;> rw [h1] at hc <;> simp at hc
  · have hq2 : q = p := by rw [← hq, if_neg hc]
    constructor
    · intro hqpub
      exfalso
      rw [hq2, hdraft] at hqpub
      exact absurd hqpub (by simp)
    · intro _
      exact hq2

/-! ## Concrete pieces for witnesses -/

/-- A draft piece used by concrete witnesses. -/
def pieceA : ContentPiece := ContentPiece.mk Platform.linkedin "Post A" ["AI"] none false

/-- A second draft piece used by concrete witnesses. -/
def pieceB : ContentPiece := ContentPiece.mk Platform.linkedin "Post B" [] none false

/-- A publish oracle that succeeds only on the first call. -/
def firstOnly : Nat → Bool := fun i => i == 0

theorem publisher_batch_isolation_witness :
    (publisherRun firstOnly true [pieceA, pieceB]).1[0]? = some (setPublished pieceA)
    ∧ (publisherRun firstOnly true [pieceA, pieceB]).1[1]? = some pieceB :=
  ⟨((publisher_batch_isolation firstOnly [pieceA, pieceB]).2.2.2 0 pieceA rfl rfl).1,
    (publisher_batch_isolation firstOnly [pieceA, pieceB]).2.2.1 1 pieceB rfl rfl⟩

theorem published_flag_only_on_success_witness :
    ((setPublished pieceA).published = true → true = true ∧ firstOnly 0 = true) ∧
    ((true = false ∨ firstOnly 0 = false) → setPublished pieceA = pieceA) :=
  published_flag_only_on_success firstOnly true [pieceA] 0 pieceA (setPublished pieceA)
    rfl rfl rfl

/-! ## Outgoing-text normalization -/

theorem pyTruncate_length (s : String) (n : Nat) :
    (pyTruncate s n).length = min n s.length := by
  show (s.data.take n).length = min n s.data.length
  exact List.length_take n s.data

/-- C5: the outgoing text appends the hashtag trailer to the body first and
hard-truncates the combined text to 3000 characters afterwards, so the
transmitted text never exceeds 3000 characters; a body of at least 3500
characters comes out at exactly the maximum. -/
theorem outgoing_text_truncated (piece : ContentPiece) :
    (outgoingText piece).length ≤ 3000
    ∧ outgoingText piece =
        pyTruncate (piece.content ++
          (if piece.hashtags = [] then "" else "\n\n" ++ hashtagTrailer piece.hashtags)) 3000
    ∧ (3500 ≤ piece.content.length → (outgoingText piece).length = 3000) := by
  refine ⟨?_, ?_, ?_⟩
  · rw [outgoingText]
    split <;> simp [pyTruncate_length]
  · rw [outgoingText]
    split
    · next h =>
      have : piece.content ++ "" = piece.content := by
        apply congrArg String.mk ?_ |>.trans rfl
        show piece.content.data ++ "".data = piece.content.data
        simp
      rw [this]
    · rw [String.append_assoc]
  · intro hlong
    rw [outgoingText]
    split
    · rw [pyTruncate_length]
      omega
    · rw [pyTruncate_length, String.length_append, String.length_append]
      omega

/-- A 3500-character body used as the C5 witness input. -/
def longPiece : ContentPiece :=
  ContentPiece.mk Platform.linkedin (String.mk (List.replicate 3500 'A')) [] none false

theorem outgoing_text_truncated_witness :
    3500 ≤ longPiece.content.length ∧ (outgoingText longPiece).length = 3000 :=
  ⟨by show 3500 ≤ (List.replicate 3500 'A').length; rw [List.length_replicate],
    (outgoing_text_truncated longPiece).2.2
      (by show 3500 ≤ (List.replicate 3500 'A').length; rw [List.length_replicate])⟩

/-! ## Orchestrator claims -/

/-- C1: `run_campaign` is a total function of the three stage outcomes —
every stage failure is captured in a returned result with status
`"failed"`; when the Research (trend) stage fails, the writer and
publisher are never invoked and the returned content list is empty. -/
theorem orchestrator_error_boundary (env : PipelineEnv) (req : CampaignRequest) (cid : String) :
    ((run_campaign env req cid).1.status = "completed"
      ∨ (run_campaign env req cid).1.status = "failed")
    ∧ (∀ e, env.trend = Except.error e →
        (run_campaign env req cid).1.status = "failed"
        ∧ (run_campaign env req cid).2 = [Stage.trend]
        ∧ (run_campaign env req cid).1.content = [])
    ∧ (∀ brief e, env.trend = Except.ok brief → env.writer brief = Except.error e →
        (run_campaign env req cid).1.status = "failed"
        ∧ Stage.publisher ∉ (run_campaign env req cid).2
        ∧ (run_campaign env req cid).1.content = [])
    ∧ (∀ brief pieces e, env.trend = Except.ok brief → env.writer brief = Except.ok pieces →
        env.publisher pieces = Except.error e →
        (run_campaign env req cid).1.status = "failed"
        ∧ (run_campaign env req cid).1.content = pieces) := by
  refine ⟨?_, ?_, ?_, ?_⟩
  · rcases htr : env.trend with e | brief
    · simp [run_campaign, htr]
    · rcases hw : env.writer brief with e | pieces
      · simp [run_campaign, htr, hw]
      · rcases hp : env.publisher pieces with e | pieces2 <;>
          simp [run_campaign, htr, hw, hp]
  · intro e htr
    simp [run_campaign, htr]
  · intro brief e htr hw
    simp [run_campaign, htr, hw]
  · intro brief pieces e htr hw hp
    simp [run_campaign, htr, hw, hp]

/-- A pipeline whose Research stage raises, used as the C1 witness input. -/
def envTrendFails : PipelineEnv :=
  PipelineEnv.mk (Except.error "boom") (fun _ => Except.ok []) (fun ps => Except.ok ps)

/-- A request used by concrete witnesses. -/
def reqA : CampaignRequest :=
  CampaignRequest.mk "AI trends" [Platform.linkedin] "professional" "tech professionals" false

theorem orchestrator_error_boundary_witness :
    (run_campaign envTrendFails reqA "c1").1.status = "failed"
    ∧ (run_campaign envTrendFails reqA "c1").2 = [Stage.trend]
    ∧ (run_campaign envTrendFails reqA "c1").1.content = [] :=
  (orchestrator_error_boundary envTrendFails reqA "c1").2.1 "boom" rfl

/-! ## Step equations of the publish retry loop -/

theorem publishLoop_step_success (env : PublishEnv) (maxR r k : Nat) (tr : Bool) (c : Nat)
    (h : env.resp k = PostResp.status c) (hc : c = 200 ∨ c = 201) :
    publishLoop env maxR (r + 1) k tr = LoopOut.mk true (k + 1) [] 0 := by
  simp only [publishLoop, h]
  rw [if_pos hc]

theorem publishLoop_step_401_refresh_ok (env : PublishEnv) (maxR r k : Nat)
    (h : env.resp k = PostResp.status 401) (hok : env.refreshOk = true) :
    publishLoop env maxR (r + 1) k false =
      (let out := publishLoop env maxR r (k + 1) true
       LoopOut.mk out.success out.calls out.delays (out.refreshes + 1)) := by
  simp [publishLoop, h, hok]

theorem publishLoop_step_401_refresh_fail (env : PublishEnv) (maxR r k : Nat)
    (h : env.resp k = PostResp.status 401) (hok : env.refreshOk = false) :
    publishLoop env maxR (r + 1) k false = LoopOut.mk false (k + 1) [] 1 := by
  simp [publishLoop, h, hok]

theorem publishLoop_step_403 (env : PublishEnv) (maxR r k : Nat) (tr : Bool)
    (h : env.resp k = PostResp.status 403) :
    publishLoop env maxR (r + 1) k tr = LoopOut.mk false (k + 1) [] 0 := by
  simp [publishLoop, h]

theorem publishLoop_step_retry (env : PublishEnv) (maxR r k : Nat) (tr : Bool) (c : Nat)
    (h : env.resp k = PostResp.status c) (h1 : ¬(c = 200 ∨ c = 201))
    (h2 : ¬(c = 401 ∧ tr = false)) (h3 : c ≠ 403) :
    publishLoop env maxR (r + 1) k tr =
      (let out := publishLoop env maxR r (k + 1) tr
       if r = 0 then out
       else LoopOut.mk out.success out.calls (2 ^ (maxR - r) :: out.delays) out.refreshes) := by
  simp only [publishLoop, h]
  rw [if_neg h1, if_neg h2, if_neg h3]

theorem publishLoop_step_transport (env : PublishEnv) (maxR r k : Nat) (tr : Bool)
    (h : env.resp k = PostResp.transportError) :
    publishLoop env maxR (r + 1) k tr =
      (let out := publishLoop env maxR r (k + 1) tr
       if r = 0 then out
       else LoopOut.mk out.success out.calls (2 ^ (maxR - r) :: out.delays) out.refreshes) := by
  simp only [publishLoop, h]

/-! ## Invariants of the retry loop -/

theorem publishLoop_refreshes_after (env : PublishEnv) (maxR : Nat) :
    ∀ (r k : Nat), (publishLoop env maxR r k true).refreshes = 0
  | 0, _ => rfl
  | r + 1, k => by
    cases h : env.resp k with
    | status c =>
      by_cases h1 : c = 200 ∨ c = 201
      · rw [publishLoop_step_success env maxR r k true c h h1]
      · by_cases h3 : c = 403
        · subst h3
          rw [publishLoop_step_403 env maxR r k true h]
        · have h2 : ¬(c = 401 ∧ (true : Bool) = false) := by simp
          rw [publishLoop_step_retry env maxR r k true c h h1 h2 h3]
          have ih := publishLoop_refreshes_after env maxR r (k + 1)
          by_cases hr : r = 0
          · subst hr
            simpa using ih
          · simpa [hr] using ih
    | transportError =>
      rw [publishLoop_step_transport env maxR r k true h]
      have ih := publishLoop_refreshes_after env maxR r (k + 1)
      by_cases hr : r = 0
      · subst hr
        simpa using ih
      · simpa [hr] using ih

theorem publishLoop_refreshes_le_one (env : PublishEnv) (maxR : Nat) :
    ∀ (r k : Nat) (tr : Bool), (publishLoop env maxR r k tr).refreshes ≤ 1
  | 0, _, _ => by simp [publishLoop]
  | r + 1, k, tr => by
    cases h : env.resp k with
    | status c =>
      by_cases h1 : c = 200 ∨ c = 201
      · rw [publishLoop_step_success env maxR r k tr c h h1]
        simp
      · by_cases h2 : c = 401 ∧ tr = false
        · obtain ⟨hc, htr⟩ := h2
          subst hc
          subst htr
          by_cases hok : env.refreshOk = true
          · rw [publishLoop_step_401_refresh_ok env maxR r k h hok]
            simp [publishLoop_refreshes_after env maxR r (k + 1)]
          · rw [publishLoop_step_401_refresh_fail env maxR r k h (by simpa using hok)]
        · by_cases h3 : c = 403
          · subst h3
            rw [publishLoop_step_403 env maxR r k tr h]
            simp
          · rw [publishLoop_step_retry env maxR r k tr c h h1 h2 h3]
            have ih := publishLoop_refreshes_le_one env maxR r (k + 1) tr
            by_cases hr : r = 0
            · subst hr
              simpa using ih
            · simpa [hr] using ih
    | transportError =>
      rw [publishLoop_step_transport env maxR r k tr h]
      have ih := publishLoop_refreshes_le_one env maxR r (k + 1) tr
      by_cases hr : r = 0
      · subst hr
        simpa using ih
      · simpa [hr] using ih

theorem publishLoop_calls_le (env : PublishEnv) (maxR : Nat) :
    ∀ (r k : Nat) (tr : Bool), (publishLoop env maxR r k tr).calls ≤ k + r
  | 0, _, _ => by simp [publishLoop]
  | r + 1, k, tr => by
    cases h : env.resp k with
    | status c =>
      by_cases h1 : c = 200 ∨ c = 201
      · rw [publishLoop_step_success env maxR r k tr c h h1]
        show k + 1 ≤ k + (r + 1)
        omega
      · by_cases h2 : c = 401 ∧ tr = false
        · obtain ⟨hc, htr⟩ := h2
          subst hc
          subst htr
          by_cases hok : env.refreshOk = true
          · rw [publishLoop_step_401_refresh_ok env maxR r k h hok]
            have := publishLoop_calls_le env maxR r (k + 1) true
            show (publishLoop env maxR r (k + 1) true).calls ≤ k + (r + 1)
            omega
          · rw [publishLoop_step_401_refresh_fail env maxR r k h (by simpa using hok)]
            show k + 1 ≤ k + (r + 1)
            omega
        · by_cases h3 : c = 403
          · subst h3
            rw [publishLoop_step_403 env maxR r k tr h]
            show k + 1 ≤ k + (r + 1)
            omega
          · rw [publishLoop_step_retry env maxR r k tr c h h1 h2 h3]
            have ih := publishLoop_calls_le env maxR r (k + 1) tr
            by_cases hr : r = 0
            · subst hr
              simp only []
              show (publishLoop env maxR 0 (k + 1) tr).calls ≤ k + (0 + 1)
              omega
            · simp only [if_neg hr]
              show (publishLoop env maxR r (k + 1) tr).calls ≤ k + (r + 1)
              omega
    | transportError =>
      rw [publishLoop_step_transport env maxR r k tr h]
      have ih := publishLoop_calls_le env maxR r (k + 1) tr
      by_cases hr : r = 0
      · subst hr
        simp only []
        show (publishLoop env maxR 0 (k + 1) tr).calls ≤ k + (0 + 1)
        omega
      · simp only [if_neg hr]
        show (publishLoop env maxR r (k + 1) tr).calls ≤ k + (r + 1)
        omega

theorem publishLoop_delays_one (env : PublishEnv) :
    ∀ (k : Nat) (tr : Bool), (publishLoop env 3 1 k tr).delays = [] := by
  intro k tr
  cases h : env.resp k with
  | status c =>
    by_cases h1 : c = 200 ∨ c = 201
    · rw [publishLoop_step_success env 3 0 k tr c h h1]
    · by_cases h2 : c = 401 ∧ tr = false
      · obtain ⟨hc, htr⟩ := h2
        subst hc
        subst htr
        by_cases hok : env.refreshOk = true
        · rw [publishLoop_step_401_refresh_ok env 3 0 k h hok]
          rfl
        · rw [publishLoop_step_401_refresh_fail env 3 0 k h (by simpa using hok)]
      · by_cases h3 : c = 403
        · subst h3
          rw [publishLoop_step_403 env 3 0 k tr h]
        · rw [publishLoop_step_retry env 3 0 k tr c h h1 h2 h3]
          rfl
  | transportError =>
    rw [publishLoop_step_transport env 3 0 k tr h]
    rfl

theorem publishLoop_delays_two (env : PublishEnv) :
    ∀ (k : Nat) (tr : Bool), (publishLoop env 3 2 k tr).delays.Sublist [4] := by
  intro k tr
  cases h : env.resp k with
  | status c =>
    by_cases h1 : c = 200 ∨ c = 201
    · rw [publishLoop_step_success env 3 1 k tr c h h1]
      exact List.nil_sublist _
    · by_cases h2 : c = 401 ∧ tr = false
      · obtain ⟨hc, htr⟩ := h2
        subst hc
        subst htr
        by_cases hok : env.refreshOk = true
        · rw [publishLoop_step_401_refresh_ok env 3 1 k h hok]
          simp [publishLoop_delays_one env (k + 1) true]
        · rw [publishLoop_step_401_refresh_fail env 3 1 k h (by simpa using hok)]
          exact List.nil_sublist _
      · by_cases h3 : c = 403
        · subst h3
          rw [publishLoop_step_403 env 3 1 k tr h]
          exact List.nil_sublist _
        · rw [publishLoop_step_retry env 3 1 k tr c h h1 h2 h3]
          simp [publishLoop_delays_one env (k + 1) tr]
  | transportError =>
    rw [publishLoop_step_transport env 3 1 k tr h]
    simp [publishLoop_delays_one env (k + 1) tr]

theorem publishLoop_delays_three (env : PublishEnv) :
    ∀ (k : Nat) (tr : Bool), (publishLoop env 3 3 k tr).delays.Sublist [2, 4] := by
  intro k tr
  cases h : env.resp k with
  | status c =>
    by_cases h1 : c = 200 ∨ c = 201
    · rw [publishLoop_step_success env 3 2 k tr c h h1]
      exact List.nil_sublist _
    · by_cases h2 : c = 401 ∧ tr = false
      · obtain ⟨hc, htr⟩ := h2
        subst hc
        subst htr
        by_cases hok : env.refreshOk = true
        · rw [publishLoop_step_401_refresh_ok env 3 2 k h hok]
          exact List.Sublist.cons 2 (by simpa using publishLoop_delays_two env (k + 1) true)
        · rw [publishLoop_step_401_refresh_fail env 3 2 k h (by simpa using hok)]
          exact List.nil_sublist _
      · by_cases h3 : c = 403
        · subst h3
          rw [publishLoop_step_403 env 3 2 k tr h]
          exact List.nil_sublist _
        · rw [publishLoop_step_retry env 3 2 k tr c h h1 h2 h3]
          exact List.Sublist.cons₂ 2 (by simpa using publishLoop_delays_two env (k + 1) tr)
  | transportError =>
    rw [publishLoop_step_transport env 3 2 k tr h]
    exact List.Sublist.cons₂ 2 (by simpa using publishLoop_delays_two env (k + 1) tr)

theorem publish_linkedin_cases (env : PublishEnv) (P : LoopOut → Prop)
    (hbail : P (LoopOut.mk false 0 [] 0))
    (hloop : P (publishLoop env max_retries max_retries 0 false)) :
    P (publish_linkedin env) := by
  rw [publish_linkedin]
  by_cases htok : env.accessToken = ""
  · rw [if_pos htok]
    exact hbail
  · rw [if_neg htok]
    rcases env.cachedUrn with _ | u
    · rcases env.urnFetch with _ | v
      · exact hbail
      · exact hloop
    · exact hloop

/-! ## Claims about the retry and refresh machine -/

/-- Oracle with a 401 on the first POST and 500 afterwards, refresh
succeeding: exhibits that the post-refresh retry occupies the next loop
slot. -/
def envFirst401 : PublishEnv :=
  PublishEnv.mk "tok" (some "urn:li:person:x") none true
    (fun k => if k = 0 then PostResp.status 401 else PostResp.status 500)

/-- C2 counterexample: with a 401 answered on the first POST and a
successful refresh, only 3 POST calls happen in total — the retried
attempt consumed a retry-count slot, so only 2 ordinary attempts remained
after the 401, not the full maximum of 3 the claim asserts. -/
theorem refresh_retry_consumes_slot_cex :
    publish_linkedin envFirst401 = LoopOut.mk false 3 [4] 1 := by decide

/-- C2 as amended: at most one credential refresh per publish call (none
once the flag is set); on a 401 with refresh failure the call returns
false immediately with exactly one further-attempt-free POST recorded and
one refresh invocation; on a 401 with refresh success the same payload is
retried immediately (no backoff sleep recorded) as the next loop slot —
consuming a retry-count slot. -/
theorem refresh_at_most_once (env : PublishEnv) (r k : Nat) (tr : Bool) :
    ((publishLoop env 3 r k true).refreshes = 0)
    ∧ ((publishLoop env 3 r k tr).refreshes ≤ 1)
    ∧ ((publish_linkedin env).refreshes ≤ 1)
    ∧ (env.resp k = PostResp.status 401 → env.refreshOk = false →
        publishLoop env 3 (r + 1) k false = LoopOut.mk false (k + 1) [] 1)
    ∧ (env.resp k = PostResp.status 401 → env.refreshOk = true →
        publishLoop env 3 (r + 1) k false =
          (let out := publishLoop env 3 r (k + 1) true
           LoopOut.mk out.success out.calls out.delays (out.refreshes + 1))) := by
  refine ⟨publishLoop_refreshes_after env 3 r k, publishLoop_refreshes_le_one env 3 r k tr,
    ?_, ?_, ?_⟩
  · exact publish_linkedin_cases env (fun o => o.refreshes ≤ 1) (by decide)
      (publishLoop_refreshes_le_one env max_retries max_retries 0 false)
  · intro h hok
    exact publishLoop_step_401_refresh_fail env 3 r k h hok
  · intro h hok
    exact publishLoop_step_401_refresh_ok env 3 r k h hok

theorem refresh_at_most_once_witness :
    publishLoop envFirst401 3 (2 + 1) 0 false =
      (let out := publishLoop envFirst401 3 2 (0 + 1) true
       LoopOut.mk out.success out.calls out.delays (out.refreshes + 1)) :=
  (refresh_at_most_once envFirst401 2 0 false).2.2.2.2 rfl rfl

/-- Oracle answering 204 No Content to every POST: a 2xx status the code
does not treat as success. -/
def envAll204 : PublishEnv :=
  PublishEnv.mk "tok" (some "urn:li:person:x") none false (fun _ => PostResp.status 204)

/-- C3 counterexample: a 204 response — a 2xx status — is not classified
as success: instead of returning true immediately after one attempt, the
call retries through all 3 attempts (sleeping 2 s then 4 s) and returns
false. -/
theorem status_204_retried_cex :
    publish_linkedin envAll204 = LoopOut.mk false 3 [2, 4] 0 := by decide

/-- C3 as amended: per attempt, exactly a 200 or 201 status is a success
returning true immediately with no further POSTs; a 403 returns false
immediately (one POST observed when it is the first response, also at the
whole-call level); any other status — including other 2xx codes such as
204 — or a transport error falls through to the retry path. -/
theorem response_classification (env : PublishEnv) (r k : Nat) (tr : Bool) (c : Nat)
    (u : String) :
    (env.resp k = PostResp.status c → (c = 200 ∨ c = 201) →
        publishLoop env 3 (r + 1) k tr = LoopOut.mk true (k + 1) [] 0)
    ∧ (env.resp k = PostResp.status 403 →
        publishLoop env 3 (r + 1) k tr = LoopOut.mk false (k + 1) [] 0)
    ∧ (env.resp k = PostResp.status c → ¬(c = 200 ∨ c = 201) → ¬(c = 401 ∧ tr = false) →
        c ≠ 403 →
        publishLoop env 3 (r + 1) k tr =
          (let out := publishLoop env 3 r (k + 1) tr
           if r = 0 then out
           else LoopOut.mk out.success out.calls (2 ^ (3 - r) :: out.delays) out.refreshes))
    ∧ (env.resp k = PostResp.transportError →
        publishLoop env 3 (r + 1) k tr =
          (let out := publishLoop env 3 r (k + 1) tr
           if r = 0 then out
           else LoopOut.mk out.success out.calls (2 ^ (3 - r) :: out.delays) out.refreshes))
    ∧ (env.resp 0 = PostResp.status 403 → env.accessToken ≠ "" → env.cachedUrn = some u →
        publish_linkedin env = LoopOut.mk false 1 [] 0) := by
  refine ⟨?_, ?_, ?_, ?_, ?_⟩
  · intro h hc
    exact publishLoop_step_success env 3 r k tr c h hc
  · intro h
    exact publishLoop_step_403 env 3 r k tr h
  · intro h h1 h2 h3
    exact publishLoop_step_retry env 3 r k tr c h h1 h2 h3
  · intro h
    exact publishLoop_step_transport env 3 r k tr h
  · intro h htok hurn
    rw [publish_linkedin, if_neg htok, hurn]
    show publishLoop env max_retries max_retries 0 false = LoopOut.mk false 1 [] 0
    exact publishLoop_step_403 env 3 2 0 false h

/-- Oracle answering 403 Forbidden to the first POST. -/
def envFirst403 : PublishEnv :=
  PublishEnv.mk "tok" (some "urn:li:person:x") none false (fun _ => PostResp.status 403)

theorem response_classification_witness :
    publish_linkedin envFirst403 = LoopOut.mk false 1 [] 0 :=
  (response_classification envFirst403 0 0 false 403 "urn:li:person:x").2.2.2.2
    rfl (by decide) rfl

/-- C4: the retry loop makes at most `k + r` POST calls from remaining
budget `r` (hence any publish call makes at most 3 = `max_retries` POSTs);
an exhausted budget returns false with no further work; and the backoff
sleeps actually performed are, in order, a sublist of [2, 4] = [2^1, 2^2]
— the base delay doubling each retry, with no sleep after the final
attempt. -/
theorem publish_retry_policy (env : PublishEnv) :
    (∀ r k tr, (publishLoop env 3 r k tr).calls ≤ k + r)
    ∧ (∀ k tr, publishLoop env 3 0 k tr = LoopOut.mk false k [] 0)
    ∧ ((publish_linkedin env).calls ≤ 3)
    ∧ ((publish_linkedin env).delays.Sublist [2, 4]) := by
  refine ⟨publishLoop_calls_le env 3, fun k tr => rfl, ?_, ?_⟩
  · exact publish_linkedin_cases env (fun o => o.calls ≤ 3) (by decide)
      (publishLoop_calls_le env max_retries max_retries 0 false)
  · exact publish_linkedin_cases env (fun o => o.delays.Sublist [2, 4])
      (List.nil_sublist _) (publishLoop_delays_three env 0 false)

/-! ## Helper lemmas: the subscriber registry -/

theorem setEntry_self (r : Registry) (cid : String) (v : Option (List Nat)) :
    setEntry r cid v cid = v := by
  simp [setEntry]

theorem setEntry_ne (r : Registry) (cid c : String) (v : Option (List Nat)) (h : c ≠ cid) :
    setEntry r cid v c = r c := by
  simp [setEntry, h]

theorem listRemove_of_mem : ∀ (l : List Nat) (w : Nat), w ∈ l →
    listRemove w l = some (l.erase w)
  | [], w, h => absurd h (List.not_mem_nil w)
  | x :: xs, w, h => by
    by_cases hx : x = w
    · subst hx
      simp [listRemove]
    · have hmem : w ∈ xs := by
        rcases List.mem_cons.mp h with h1 | h1
        · exact absurd h1.symm hx
        · exact h1
      simp only [listRemove, if_neg hx]
      rw [listRemove_of_mem xs w hmem, List.erase_cons_tail (by simpa using hx)]
      rfl

theorem listRemove_of_not_mem : ∀ (l : List Nat) (w : Nat), w ∉ l → listRemove w l = none
  | [], _, _ => rfl
  | x :: xs, w, h => by
    have hx : ¬x = w := fun he => h (by rw [← he]; exact List.mem_cons_self x xs)
    simp only [listRemove, if_neg hx]
    rw [listRemove_of_not_mem xs w (fun hm => h (List.mem_cons_of_mem x hm))]
    rfl

theorem disconnect_absent (r : Registry) (ws : Nat) (cid : String) (h : r cid = none) :
    disconnect r ws cid = some r := by
  rw [disconnect, h]

theorem disconnect_present (r : Registry) (ws : Nat) (cid : String) (conns : List Nat)
    (h : r cid = some conns) (hmem : ws ∈ conns) :
    disconnect r ws cid =
      some (setEntry r cid (if conns.erase ws = [] then none else some (conns.erase ws))) := by
  simp only [disconnect, h, listRemove_of_mem conns ws hmem]

theorem disconnect_missing_handle (r : Registry) (ws : Nat) (cid : String) (conns : List Nat)
    (h : r cid = some conns) (hmem : ws ∉ conns) :
    disconnect r ws cid = none := by
  simp only [disconnect, h, listRemove_of_not_mem conns ws hmem]

theorem disconnectAll_absent (cid : String) : ∀ (d : List Nat) (r : Registry),
    r cid = none → disconnectAll cid d r = some r
  | [], _, _ => rfl
  | w :: ws, r, h => by
    rw [disconnectAll, disconnect_absent r w cid h]
    exact disconnectAll_absent cid ws r h

/-- Erasing, in order, every element of `d` from `l` — the cumulative
effect of the `dead`-removal loop on one campaign's subscriber list. -/
def removeAll (d : List Nat) (l : List Nat) : List Nat :=
  d.foldl (fun acc w => acc.erase w) l

theorem removeAll_nil : ∀ (d : List Nat), removeAll d [] = []
  | [] => rfl
  | w :: ws => by
    show removeAll ws ([].erase w) = []
    rw [List.erase_nil]
    exact removeAll_nil ws

theorem removeAll_cons (w : Nat) (ws l : List Nat) :
    removeAll (w :: ws) l = removeAll ws (l.erase w) := rfl

theorem removeAll_skip (x : Nat) : ∀ (d l : List Nat), (∀ w ∈ d, w ≠ x) →
    removeAll d (x :: l) = x :: removeAll d l
  | [], _, _ => rfl
  | w :: ws, l, h => by
    have hxw : x ≠ w := (h w (List.mem_cons_self w ws)).symm
    rw [removeAll_cons, removeAll_cons, List.erase_cons_tail (by simpa using hxw)]
    exact removeAll_skip x ws (l.erase w) (fun v hv => h v (List.mem_cons_of_mem w hv))

theorem removeAll_filter (ok : Nat → Bool) : ∀ (l : List Nat),
    removeAll (l.filter (fun w => !ok w)) l = l.filter ok
  | [] => rfl
  | x :: l => by
    by_cases hx : ok x = true
    · rw [@List.filter_cons_of_neg Nat (fun w => !ok w) x l (by simp [hx]),
        @List.filter_cons_of_pos Nat ok x l hx]
      rw [removeAll_skip x _ l ?hne]
      · rw [removeAll_filter ok l]
      case hne =>
        intro w hw
        have hw2 := (List.mem_filter.mp hw).2
        intro he
        subst he
        rw [hx] at hw2
        exact absurd hw2 (by simp)
    · have hx0 : ok x = false := by simpa using hx
      rw [@List.filter_cons_of_pos Nat (fun w => !ok w) x l (by simp [hx0]),
        @List.filter_cons_of_neg Nat ok x l hx]
      rw [removeAll_cons, List.erase_cons_head]
      exact removeAll_filter ok l

theorem disconnectAll_present (cid : String) : ∀ (d : List Nat) (r : Registry)
    (conns : List Nat), r cid = some conns → (∀ x, d.count x ≤ conns.count x) →
    ∃ r2, disconnectAll cid d r = some r2
      ∧ (∀ c, c ≠ cid → r2 c = r c)
      ∧ (r2 cid = some (removeAll d conns) ∨ (removeAll d conns = [] ∧ r2 cid = none))
  | [], r, conns, h, _ => ⟨r, rfl, fun _ _ => rfl, Or.inl (by rw [h]; rfl)⟩
  | w :: ws, r, conns, h, hcount => by
    have hmem : w ∈ conns := by
      have h1 := hcount w
      rw [List.count_cons_self] at h1
      exact List.count_pos_iff.mp (by omega)
    rw [disconnectAll, disconnect_present r w cid conns h hmem]
    by_cases he : conns.erase w = []
    · rw [if_pos he]
      have h1 : setEntry r cid none cid = none := setEntry_self r cid none
      refine ⟨setEntry r cid none, ?_, ?_, ?_⟩
      · exact disconnectAll_absent cid ws (setEntry r cid none) h1
      · intro c hc
        exact setEntry_ne r cid c none hc
      · exact Or.inr ⟨by rw [removeAll_cons, he, removeAll_nil], h1⟩
    · rw [if_neg he]
      have h1 : setEntry r cid (some (conns.erase w)) cid = some (conns.erase w) :=
        setEntry_self r cid (some (conns.erase w))
      have hcount2 : ∀ x, ws.count x ≤ (conns.erase w).count x := by
        intro x
        by_cases hx : x = w
        · subst hx
          rw [List.count_erase_self]
          have h2 := hcount x
          rw [List.count_cons_self] at h2
          omega
        · rw [List.count_erase_of_ne hx]
          have h2 := hcount x
          rw [List.count_cons_of_ne hx] at h2
          exact h2
      obtain ⟨r2, hAll, hOther, hDisj⟩ :=
        disconnectAll_present cid ws (setEntry r cid (some (conns.erase w)))
          (conns.erase w) h1 hcount2
      refine ⟨r2, hAll, ?_, ?_⟩
      · intro c hc
        rw [hOther c hc, setEntry_ne r cid c _ hc]
      · rw [removeAll_cons]
        exact hDisj

/-! ## Claims about the event broadcaster -/

/-- C8: `broadcast_event` never raises: with no registry entry it is a
no-op; with an entry, every subscriber whose send succeeds receives the
event (delivery to one subscriber is unaffected by failures of others),
the dead-subscriber cleanup loop itself never raises, failed subscribers
are removed from the registry, and other campaigns' entries are
untouched. -/
theorem broadcast_never_raises (r : Registry) (cid : String) (sendOk : Nat → Bool) :
    ((broadcast_event r cid sendOk).isSome = true)
    ∧ (r cid = none → broadcast_event r cid sendOk = some (r, []))
    ∧ (∀ conns, r cid = some conns →
        ∃ r2, broadcast_event r cid sendOk = some (r2, conns.filter (fun w => sendOk w))
          ∧ (∀ c, c ≠ cid → r2 c = r c)
          ∧ (r2 cid = none ∨ r2 cid = some (conns.filter (fun w => sendOk w)))
          ∧ (∀ w l, sendOk w = false → r2 cid = some l → w ∉ l)) := by
  have main : ∀ conns, r cid = some conns →
      ∃ r2, broadcast_event r cid sendOk = some (r2, conns.filter (fun w => sendOk w))
        ∧ (∀ c, c ≠ cid → r2 c = r c)
        ∧ (r2 cid = none ∨ r2 cid = some (conns.filter (fun w => sendOk w)))
        ∧ (∀ w l, sendOk w = false → r2 cid = some l → w ∉ l) := by
    intro conns h
    have hcount : ∀ x, (conns.filter (fun w => !sendOk w)).count x ≤ conns.count x :=
      fun x => (List.filter_sublist conns).count_le x
    obtain ⟨r2, hAll, hOther, hDisj⟩ :=
      disconnectAll_present cid (conns.filter (fun w => !sendOk w)) r conns h hcount
    have hrw : removeAll (conns.filter (fun w => !sendOk w)) conns =
        conns.filter (fun w => sendOk w) := removeAll_filter sendOk conns
    have hDisj2 : r2 cid = none ∨ r2 cid = some (conns.filter (fun w => sendOk w)) := by
      rcases hDisj with h2 | h2
      · exact Or.inr (h2.trans (congrArg some hrw))
      · exact Or.inl h2.2
    refine ⟨r2, ?_, hOther, hDisj2, ?_⟩
    · simp only [broadcast_event, h]
      rw [hAll]
      rfl
    · intro w l hw hl
      rcases hDisj2 with h2 | h2
      · rw [h2] at hl
        exact absurd hl (by simp)
      · rw [h2] at hl
        rw [Option.some_inj] at hl
        subst hl
        intro hmem
        have := (List.mem_filter.mp hmem).2
        rw [hw] at this
        exact absurd this (by simp)
  refine ⟨?_, ?_, main⟩
  · rcases hr : r cid with _ | conns
    · simp [broadcast_event, hr]
    · obtain ⟨r2, heq, _⟩ := main conns hr
      rw [heq]
      rfl
  · intro h
    simp [broadcast_event, h]

/-- A registry with three subscribers of campaign `"c1"`, used as the C8
witness input. -/
def regBcast : Registry := fun c => if c = "c1" then some [1, 2, 3] else none

/-- A send oracle that succeeds exactly on odd handles. -/
def okOdd : Nat → Bool := fun w => w % 2 == 1

theorem broadcast_never_raises_witness :
    ∃ r2, broadcast_event regBcast "c1" okOdd = some (r2, [1, 2, 3].filter (fun w => okOdd w))
      ∧ (∀ c, c ≠ "c1" → r2 c = regBcast c)
      ∧ (r2 "c1" = none ∨ r2 "c1" = some ([1, 2, 3].filter (fun w => okOdd w)))
      ∧ (∀ w l, okOdd w = false → r2 "c1" = some l → w ∉ l) :=
  (broadcast_never_raises regBcast "c1" okOdd).2.2 [1, 2, 3] rfl

/-! ## Claims about unsubscribing -/

/-- A registry in which campaign `"c1"` has the two subscribers 1 and 2. -/
def regTwo : Registry := fun c => if c = "c1" then some [1, 2] else none

/-- `regTwo` after handle 1 was disconnected: subscriber 2 remains. -/
def regOne : Registry := fun c => if c = "c1" then some [2] else none

/-- C9 counterexample: disconnecting handle 1 from `"c1"` twice while
subscriber 2 remains registered is not idempotent — the second call hits
`list.remove` on a list not containing the handle and raises ValueError
(modelled by `none`) instead of leaving the registry unchanged. -/
theorem disconnect_second_raises_cex :
    disconnect regTwo 1 "c1" = some regOne ∧ disconnect regOne 1 "c1" = none := by
  constructor
  · rw [disconnect_present regTwo 1 "c1" [1, 2] rfl (by decide)]
    congr 1
    funext c
    by_cases hc : c = "c1"
    · subst hc
      decide
    · simp [setEntry, regTwo, regOne, hc]
  · exact disconnect_missing_handle regOne 1 "c1" [2] rfl (by decide)

/-- C9 as amended: a second disconnect with an already-removed handle is a
no-op (and cannot throw) only when the campaign's registry entry is gone;
when the campaign still has registered subscribers not including the
handle, disconnect raises (`list.remove` ValueError, modelled `none`). -/
theorem disconnect_partial_idempotence (r : Registry) (ws : Nat) (cid : String) :
    (r cid = none → disconnect r ws cid = some r)
    ∧ (∀ conns, r cid = some conns → ws ∉ conns → disconnect r ws cid = none) := by
  constructor
  · exact disconnect_absent r ws cid
  · intro conns h hmem
    exact disconnect_missing_handle r ws cid conns h hmem

/-- The empty registry. -/
def regEmpty : Registry := fun _ => none

theorem disconnect_partial_idempotence_witness :
    disconnect regEmpty 1 "c1" = some regEmpty ∧ disconnect regOne 7 "c1" = none :=
  ⟨(disconnect_partial_idempotence regEmpty 1 "c1").1 rfl,
    (disconnect_partial_idempotence regOne 7 "c1").2 [2] rfl (by decide)⟩

end SMCC
